import Mathlib

/-!
Verification of the znews Article Store and Feed Store (package store) against
their natural-language specification.  The Go sources are embedded shallowly:
machine integers become Nat/Int with explicit reduction modulo 2^32 where the
code relies on 32-bit wraparound, Go slices become lists, the Go map becomes an
association list, `time.Time` becomes an integer instant compared with the same
strict order as `Time.After`, and fallible operations return `Except`.
Identifier generation (`uuid.NewSHA1`) is modelled down to the byte level:
SHA-1 over the namespace bytes followed by the key bytes, with the version and
variant bits of a version-5 UUID, formatted as the canonical lowercase hex
string.  The model is validated below against the UUID values hard-coded in the
repository test files.
-/

/-- Reduce a natural number to 32 bits, as Go arithmetic on uint32 does. -/
def u32 (n : Nat) : Nat := n % 4294967296

/-- Rotate the low 32 bits of `n` left by `b` positions. -/
def rotl32 (b n : Nat) : Nat := u32 ((n <<< b) ||| (n >>> (32 - b)))

/-- SHA-1 padding: append the byte 0x80, then zero bytes until the length is
56 modulo 64, then the original length in bits as 8 big-endian bytes. -/
def sha1pad (msg : List Nat) : List Nat :=
  let len := msg.length
  let bitLen := len * 8
  let padZeros := (119 - len % 64) % 64
  msg ++ 128 :: List.replicate padZeros 0 ++
    [bitLen >>> 56 % 256, bitLen >>> 48 % 256, bitLen >>> 40 % 256, bitLen >>> 32 % 256,
     bitLen >>> 24 % 256, bitLen >>> 16 % 256, bitLen >>> 8 % 256, bitLen % 256]

/-- Group a byte list into 32-bit big-endian words. -/
def toWords : List Nat → List Nat
  | b0 :: b1 :: b2 :: b3 :: rest => (((b0 * 256 + b1) * 256 + b2) * 256 + b3) :: toWords rest
  | _ => []

/-- Extend a 16-word block with `fuel` further schedule words
(`w[i] = rotl1 (w[i-3] xor w[i-8] xor w[i-14] xor w[i-16])`). -/
def sched (w : List Nat) : Nat → List Nat
  | 0 => w
  | n + 1 =>
    let l := w.length
    sched (w ++ [rotl32 1 ((w.getD (l - 3) 0) ^^^ (w.getD (l - 8) 0) ^^^
      (w.getD (l - 14) 0) ^^^ (w.getD (l - 16) 0))]) n

/-- The SHA-1 round function for round `t`. -/
def sha1f (t b c d : Nat) : Nat :=
  if t < 20 then (b &&& c) ||| ((b ^^^ 4294967295) &&& d)
  else if t < 40 then b ^^^ c ^^^ d
  else if t < 60 then (b &&& c) ||| (b &&& d) ||| (c &&& d)
  else b ^^^ c ^^^ d

/-- The SHA-1 round constant for round `t`. -/
def sha1k (t : Nat) : Nat :=
  if t < 20 then 1518500249
  else if t < 40 then 1859775393
  else if t < 60 then 2400959708
  else 3395469782

/-- One SHA-1 round applied to the five-word working state. -/
def sha1round (w : List Nat) (s : Nat × Nat × Nat × Nat × Nat) (t : Nat) :
    Nat × Nat × Nat × Nat × Nat :=
  match s with
  | (a, b, c, d, e) =>
    (u32 (rotl32 5 a + sha1f t b c d + e + sha1k t + w.getD t 0), a, rotl32 30 b, c, d)

/-- Compress one 64-byte chunk into the running hash state. -/
def compressChunk (h : Nat × Nat × Nat × Nat × Nat) (chunk : List Nat) :
    Nat × Nat × Nat × Nat × Nat :=
  let w := sched (toWords chunk) 64
  match h, (List.range 80).foldl (sha1round w) h with
  | (h0, h1, h2, h3, h4), (a, b, c, d, e) =>
    (u32 (h0 + a), u32 (h1 + b), u32 (h2 + c), u32 (h3 + d), u32 (h4 + e))

/-- Split a byte list into its 64-byte chunks; the fuel argument only bounds
the recursion and is always instantiated at least at the number of chunks. -/
def chunkify : Nat → List Nat → List (List Nat)
  | _, [] => []
  | 0, _ => []
  | fuel + 1, bytes => bytes.take 64 :: chunkify fuel (bytes.drop 64)

/-- Fold the compression function over all 64-byte chunks of a padded message. -/
def processChunks (h : Nat × Nat × Nat × Nat × Nat) (bytes : List Nat) :
    Nat × Nat × Nat × Nat × Nat :=
  (chunkify bytes.length bytes).foldl compressChunk h

/-- Big-endian bytes of one 32-bit word. -/
def wordBytes (n : Nat) : List Nat :=
  [n >>> 24 % 256, n >>> 16 % 256, n >>> 8 % 256, n % 256]

/-- SHA-1 digest (20 bytes) of a byte string. -/
def sha1 (msg : List Nat) : List Nat :=
  match processChunks (1732584193, 4023233417, 2562383102, 271733878, 3285377520)
      (sha1pad msg) with
  | (h0, h1, h2, h3, h4) =>
    wordBytes h0 ++ wordBytes h1 ++ wordBytes h2 ++ wordBytes h3 ++ wordBytes h4

/-- One lowercase hexadecimal digit. -/
def hexDigit (n : Nat) : Char :=
  if n < 10 then Char.ofNat (48 + n) else Char.ofNat (87 + n)

/-- Two lowercase hexadecimal digits of one byte. -/
def hexByte (b : Nat) : List Char :=
  [hexDigit (b / 16 % 16), hexDigit (b % 16)]

/-- Canonical 8-4-4-4-12 textual form of a 16-byte UUID. -/
def uuidString (bs : List Nat) : String :=
  String.mk (((bs.take 4).map hexByte).flatten) ++ "-" ++
    String.mk ((((bs.drop 4).take 2).map hexByte).flatten) ++ "-" ++
    String.mk ((((bs.drop 6).take 2).map hexByte).flatten) ++ "-" ++
    String.mk ((((bs.drop 8).take 2).map hexByte).flatten) ++ "-" ++
    String.mk (((bs.drop 10).map hexByte).flatten)

/-- `uuid.NewSHA1(space, data).String()`: SHA-1 of the namespace bytes followed
by the data bytes, truncated to 16 bytes, with the version-5 and RFC-4122
variant bits forced, as the canonical string. -/
def uuidNewSHA1 (space data : List Nat) : String :=
  let h := (sha1 (space ++ data)).take 16
  uuidString (h.take 6 ++ [h.getD 6 0 % 16 ||| 80, h.getD 7 0, h.getD 8 0 % 64 ||| 128] ++
    h.drop 9)

/-- UTF-8 bytes of one character, as Go byte-slice conversion of a string. -/
def charUtf8 (c : Char) : List Nat :=
  let n := c.toNat
  if n < 128 then [n]
  else if n < 2048 then [192 ||| (n >>> 6), 128 ||| (n &&& 63)]
  else if n < 65536 then
    [224 ||| (n >>> 12), 128 ||| ((n >>> 6) &&& 63), 128 ||| (n &&& 63)]
  else
    [240 ||| (n >>> 18), 128 ||| ((n >>> 12) &&& 63), 128 ||| ((n >>> 6) &&& 63),
     128 ||| (n &&& 63)]

/-- The byte sequence of a string (`[]byte(s)` in Go). -/
def strBytes (s : String) : List Nat := (s.data.map charUtf8).flatten

/-- The bytes of the parsed store namespace UUID
`cabe9f84-ab7e-494c-bf53-7499adeb30ac` (constant `uuidNamespace` in
`store/store.go`), shared by both stores. -/
def uuidNamespaceBytes : List Nat :=
  [202, 190, 159, 132, 171, 126, 73, 76, 191, 83, 116, 153, 173, 235, 48, 172]

/-- The identifier `ArticleStore.Create` derives for an article:
`uuid.NewSHA1(as.uuidNamespace, []byte(article.GUID)).String()`. -/
def generatedArticleID (guid : String) : String :=
  uuidNewSHA1 uuidNamespaceBytes (strBytes guid)

/-- The identifier `FeedStore.Create` derives for a feed:
`uuid.NewSHA1(fs.uuidNamespace, []byte(feed.Address)).String()`. -/
def generatedFeedID (address : String) : String :=
  uuidNewSHA1 uuidNamespaceBytes (strBytes address)

set_option maxRecDepth 10000 in
/-- The test files of the repository hard-code the identifier the stores must
derive for the key "test_guid"; the byte-level model reproduces it. -/
theorem generatedID_matches_repo_tests :
    generatedFeedID "test_guid" = "dbefb2be-dfe0-5513-b23a-cc04c551221e" := by decide

/-- types.Enclosure. The Go field named Type is rendered as EType. -/
structure Enclosure where
  URL : String
  EType : String
deriving DecidableEq, Repr, Inhabited

/-- types.Article. PublishDate models the time.Time instant as an integer. -/
structure Article where
  FeedID : String
  ID : String
  GUID : String
  Title : String
  Link : String
  Comments : String
  PublishDate : Int
  Categories : List String
  Enclosures : List Enclosure
  Description : String
  Author : String
  Content : String
  FullText : String
deriving DecidableEq, Repr, Inhabited

/-- types.Feed. -/
structure Feed where
  ID : String
  Provider : String
  Category : String
  Address : String
deriving DecidableEq, Repr, Inhabited

/-- Lookup in the Go map modelled as an association list. -/
def mLookup (m : List (String × Article)) (k : String) : Option Article :=
  match m with
  | [] => none
  | (k1, v) :: rest => if k1 = k then some v else mLookup rest k

/-- Assignment `m[k] = v` in the Go map; in the store it is only ever executed
for a key that is absent, so prepending the binding is the exact semantics. -/
def mInsert (m : List (String × Article)) (k : String) (v : Article) :
    List (String × Article) :=
  (k, v) :: m

/-- ArticleStore: the ordered slice and the identifier index. -/
structure ArticleStore where
  a : List Article
  m : List (String × Article)
deriving DecidableEq, Repr

/-- NewArticleStore. -/
def NewArticleStore : ArticleStore := { a := [], m := [] }

/-- ArticleStore.Reset. -/
def ArticleStore.Reset (_ : ArticleStore) : ArticleStore := { a := [], m := [] }

/-- The backward scan of ArticleStore.Create: starting at slice index given by
the fuel (called with `len - 2`), walk down; at index `i + 1` stop when
`article.PublishDate.After(as.a[i+1].PublishDate)`, and index 0 always stops
(the `i == 0` disjunct of the loop condition).  Returns the index `i` such
that the article is spliced in at position `i + 1`. -/
def scanIdx (arr : List Article) (x : Article) : Nat → Nat
  | 0 => 0
  | i + 1 =>
    if x.PublishDate > (arr.getD (i + 1) default).PublishDate then i + 1
    else scanIdx arr x i

/-- ArticleStore.Create.  Returns the Go pair (article, error) next to the
updated store; the source never produces a non-nil error.  A nil input is
`none`.  The three insertion branches mirror the source: append when the last
element does not publish after the new one, prepend when the new one does not
publish after the first, otherwise splice after the backward scan index. -/
def ArticleStore.Create (as : ArticleStore) (article : Option Article) :
    (Option Article × Option String) × ArticleStore :=
  match article with
  | none => ((none, none), as)
  | some art =>
    let gid := generatedArticleID art.GUID
    match mLookup as.m gid with
    | some a0 => ((some a0, none), as)
    | none =>
      let art := { art with ID := gid }
      if as.a.length = 0 ∨
          ¬ (as.a.getD (as.a.length - 1) default).PublishDate > art.PublishDate then
        ((some art, none), { a := as.a ++ [art], m := mInsert as.m gid art })
      else if ¬ art.PublishDate > (as.a.getD 0 default).PublishDate then
        ((some art, none), { a := art :: as.a, m := mInsert as.m gid art })
      else
        let i := scanIdx as.a art (as.a.length - 2)
        ((some art, none),
          { a := as.a.take (i + 1) ++ art :: as.a.drop (i + 1), m := mInsert as.m gid art })

/-- findArticleCursorIndex: the empty cursor resolves to index 0, otherwise
the index directly after the first article whose ID equals the cursor. -/
def findArticleCursorIndex (arr : List Article) (cursor : String) : Option Nat :=
  if cursor = "" then some 0
  else
    match arr.findIdx? (fun a => a.ID == cursor) with
    | some i => some (i + 1)
    | none => none

/-- The category test of ArticleStore.List: with a non-empty filter set an
article with no categories is skipped, otherwise it is kept when one of its
categories is in the filter set. -/
def passesCategory (cat : List String) (cur : Article) : Bool :=
  if cat.isEmpty then true
  else if cur.Categories.isEmpty then false
  else cur.Categories.any (fun c => cat.contains c)

/-- The feed test of ArticleStore.List: a non-empty feed filter keeps exactly
the articles whose FeedID equals it. -/
def passesFeed (feed : String) (cur : Article) : Bool :=
  if feed = "" then true else cur.FeedID == feed

/-- The collection loop of ArticleStore.List: walk the remaining slice, keep
articles passing both filters, and stop once the running count reaches
pageSize exactly (a pageSize of zero is never reached and means no limit). -/
def collect (cat : List String) (feed : String) (pageSize : Int) :
    List Article → Int → List Article
  | [], _ => []
  | cur :: rest, found =>
    if passesCategory cat cur && passesFeed feed cur then
      if found + 1 = pageSize then [cur]
      else cur :: collect cat feed pageSize rest (found + 1)
    else collect cat feed pageSize rest found

/-- ArticleStore.List. -/
def ArticleStore.ListArticles (as : ArticleStore) (cursor : String) (pageSize : Int)
    (feed : String) (categories : List String) : Except String (List Article) :=
  match findArticleCursorIndex as.a cursor with
  | none => Except.error "could not find provided cursor"
  | some i => Except.ok (collect categories feed pageSize (as.a.drop i) 0)

/-- ArticleStore.Get. -/
def ArticleStore.Get (as : ArticleStore) (id : String) : Except String Article :=
  if id = "" then Except.error "invalid ID provided"
  else
    match mLookup as.m id with
    | none => Except.error "resource not found"
    | some a0 => Except.ok a0

/-- Feed map lookup, as mLookup. -/
def fLookup (m : List (String × Feed)) (k : String) : Option Feed :=
  match m with
  | [] => none
  | (k1, v) :: rest => if k1 = k then some v else fLookup rest k

/-- FeedStore: the identifier index only. -/
structure FeedStore where
  m : List (String × Feed)
deriving DecidableEq, Repr

/-- NewFeedStore. -/
def NewFeedStore : FeedStore := { m := [] }

/-- FeedStore.Create. -/
def FeedStore.Create (fs : FeedStore) (feed : Option Feed) :
    (Option Feed × Option String) × FeedStore :=
  match feed with
  | none => ((none, none), fs)
  | some f =>
    let gid := generatedFeedID f.Address
    match fLookup fs.m gid with
    | some a0 => ((some a0, none), fs)
    | none =>
      let f := { f with ID := gid }
      ((some f, none), { m := (gid, f) :: fs.m })

/-- Apply a sequence of Create calls to a fresh Article Store. -/
def createAll (arts : List Article) : ArticleStore :=
  arts.foldl (fun st x => (st.Create (some x)).2) NewArticleStore

/-- The sequence is sorted non-descending by publish timestamp. -/
def PubSorted (l : List Article) : Prop :=
  List.Pairwise (fun x y => x.PublishDate ≤ y.PublishDate) l

/-- The filter the collection loop applies to each walked article. -/
def passesBoth (cat : List String) (feed : String) (cur : Article) : Bool :=
  passesCategory cat cur && passesFeed feed cur

/-- The collection loop keeps the filtered articles, truncated to the page
window when the running count can still reach pageSize. -/
theorem collect_eq_filter (cat : List String) (feed : String) (P : Int) :
    ∀ (l : List Article) (n : Int), 0 ≤ n →
      collect cat feed P l n =
        if n < P then (l.filter (passesBoth cat feed)).take (P - n).toNat
        else l.filter (passesBoth cat feed) := by
  intro l
  induction l with
  | nil => intro n _; simp [collect]
  | cons cur rest ih =>
    intro n hn
    show (if passesCategory cat cur && passesFeed feed cur then
        if n + 1 = P then [cur] else cur :: collect cat feed P rest (n + 1)
      else collect cat feed P rest n) = _
    by_cases hp : (passesCategory cat cur && passesFeed feed cur) = true
    · rw [if_pos hp, List.filter_cons_of_pos (show passesBoth cat feed cur = true from hp)]
      by_cases hfull : n + 1 = P
      · rw [if_pos hfull, if_pos (show n < P by omega)]
        have h1 : (P - n).toNat = 1 := by omega
        rw [h1]
        rfl
      · rw [if_neg hfull, ih (n + 1) (by omega)]
        by_cases hlt : n < P
        · rw [if_pos (show n + 1 < P by omega), if_pos hlt]
          have hsucc : (P - n).toNat = (P - (n + 1)).toNat + 1 := by omega
          rw [hsucc, List.take_succ_cons]
        · rw [if_neg (show ¬ n + 1 < P by omega), if_neg hlt]
    · rw [if_neg hp, List.filter_cons_of_neg (show ¬ passesBoth cat feed cur = true from hp),
        ih n hn]

/-- A SHA-1 digest always has 20 bytes. -/
theorem sha1_length (msg : List Nat) : (sha1 msg).length = 20 := by
  have h : ∀ t : Nat × Nat × Nat × Nat × Nat,
      (match t with
        | (h0, h1, h2, h3, h4) =>
          wordBytes h0 ++ wordBytes h1 ++ wordBytes h2 ++ wordBytes h3 ++ wordBytes h4).length
        = 20 := by
    rintro ⟨h0, h1, h2, h3, h4⟩
    simp [wordBytes]
  exact h _

/-- Two hex digits per byte. -/
theorem hexBytes_length (l : List Nat) : ((l.map hexByte).flatten).length = 2 * l.length := by
  induction l with
  | nil => rfl
  | cons x xs ih => simp [hexByte, ih]; omega

/-- A generated identifier is the canonical 36-character UUID string; in
particular it is never the empty string, so a stored identifier never
collides with the empty-cursor convention of List. -/
theorem uuidNewSHA1_length (space data : List Nat) :
    (uuidNewSHA1 space data).length = 36 := by
  have h20 := sha1_length (space ++ data)
  unfold uuidNewSHA1 uuidString
  have hdash : ("-" : String).length = 1 := rfl
  simp only [String.length_append, String.length_mk, hexBytes_length, List.length_take,
    List.length_drop, List.length_append, List.length_cons, List.length_nil, h20, hdash]
  omega

/-- Generated identifiers are nonempty. -/
theorem uuidNewSHA1_ne_empty (space data : List Nat) : uuidNewSHA1 space data ≠ "" := by
  intro hcon
  have h36 := uuidNewSHA1_length space data
  rw [hcon] at h36
  exact absurd h36 (by decide)

/-- With no filters every walked article passes. -/
theorem passesBoth_trivial (a : Article) : passesBoth [] "" a = true := by
  simp [passesBoth, passesCategory, passesFeed]

/-- Filtering with no filters keeps everything. -/
theorem filter_passesBoth_trivial (l : List Article) : l.filter (passesBoth [] "") = l := by
  induction l with
  | nil => rfl
  | cons x xs ih => rw [List.filter_cons_of_pos (passesBoth_trivial x), ih]

/-- With pageSize 0 and no filters the collection loop returns the whole
remaining slice: the running count starts at 0 and is checked only after an
increment, so it never equals 0. -/
theorem collect_all (l : List Article) : collect [] "" 0 l 0 = l := by
  rw [collect_eq_filter [] "" 0 l 0 le_rfl, if_neg (by omega), filter_passesBoth_trivial]

/-- With a positive page size and no filters the collection loop returns a
page-sized prefix of the remaining slice. -/
theorem collect_page (l : List Article) (P : Int) (hP : 1 ≤ P) :
    collect [] "" P l 0 = l.take P.toNat := by
  rw [collect_eq_filter [] "" P l 0 le_rfl, if_pos (by omega), filter_passesBoth_trivial,
    Int.sub_zero]

/-- The empty cursor resolves to the start of the sequence. -/
theorem findCursor_empty (arr : List Article) : findArticleCursorIndex arr "" = some 0 := rfl

/-- A nonempty cursor matching no stored identifier fails to resolve. -/
theorem findCursor_not_found (arr : List Article) (cursor : String) (hc : cursor ≠ "")
    (h : ∀ a ∈ arr, a.ID ≠ cursor) : findArticleCursorIndex arr cursor = none := by
  rw [findArticleCursorIndex, if_neg hc]
  have hnone : arr.findIdx? (fun a => a.ID == cursor) = none := by
    rw [List.findIdx?_eq_none_iff]
    intro x hx
    simp [h x hx]
  rw [hnone]

/-- A cursor that is the identifier of some stored article resolves. -/
theorem findCursor_found (arr : List Article) (cursor : String) (a : Article)
    (ha : a ∈ arr) (hid : a.ID = cursor) :
    ∃ i, findArticleCursorIndex arr cursor = some i := by
  by_cases hc : cursor = ""
  · exact ⟨0, by rw [hc]; exact findCursor_empty arr⟩
  · rw [findArticleCursorIndex, if_neg hc]
    rcases hfind : arr.findIdx? (fun x => x.ID == cursor) with _ | j
    · rw [List.findIdx?_eq_none_iff] at hfind
      have := hfind a ha
      simp [hid] at this
    · rw [hfind]
      exact ⟨j + 1, rfl⟩

/-- When the stored identifiers are pairwise distinct, looking up the
identifier of the element at index i finds exactly index i. -/
theorem findIdx?_id_nodup :
    ∀ (l : List Article), (l.map Article.ID).Nodup →
      ∀ (i : Nat) (h : i < l.length), l.findIdx? (fun a => a.ID == l[i].ID) = some i := by
  intro l
  induction l with
  | nil => intro _ i h; simp at h
  | cons x xs ih =>
    intro hnd i h
    rw [List.map_cons, List.nodup_cons] at hnd
    match i with
    | 0 => simp [List.findIdx?_cons]
    | i + 1 =>
      have hi : i < xs.length := by simpa using h
      have hx : ¬ (x.ID == xs[i].ID) = true := by
        simp only [beq_iff_eq, List.getElem_cons_succ]
        intro hEq
        exact hnd.1 (hEq ▸ List.mem_map_of_mem Article.ID (xs.getElem_mem hi))
      rw [List.getElem_cons_succ, List.findIdx?_cons, if_neg hx, List.findIdx?_succ,
        ih hnd.2 i hi]
      rfl

/-- In a sorted sequence, positions are monotone in publish date. -/
theorem pubSorted_getElem_le (l : List Article) (hs : PubSorted l) (i j : Nat)
    (hij : i ≤ j) (hj : j < l.length) (hi : i < l.length) :
    (l.get ⟨i, hi⟩).PublishDate ≤ (l.get ⟨j, hj⟩).PublishDate := by
  rcases Nat.eq_or_lt_of_le hij with rfl | hlt
  · exact le_rfl
  · exact List.pairwise_iff_get.mp hs ⟨i, hi⟩ ⟨j, hj⟩ hlt

/-- Every member of a sorted sequence publishes no later than the final
element. -/
theorem pubSorted_le_last (l : List Article) (hs : PubSorted l) (a : Article) (ha : a ∈ l) :
    a.PublishDate ≤ (l.getD (l.length - 1) default).PublishDate := by
  obtain ⟨i, hi, rfl⟩ := List.mem_iff_getElem.mp ha
  have hl : l.length - 1 < l.length := by omega
  rw [List.getD_eq_getElem l default hl]
  exact pubSorted_getElem_le l hs i (l.length - 1) (by omega) hl hi

/-- The first element of a sorted sequence publishes no later than any
member. -/
theorem pubSorted_head_le (l : List Article) (hs : PubSorted l) (a : Article) (ha : a ∈ l) :
    (l.getD 0 default).PublishDate ≤ a.PublishDate := by
  obtain ⟨i, hi, rfl⟩ := List.mem_iff_getElem.mp ha
  have h0 : 0 < l.length := by omega
  rw [List.getD_eq_getElem l default h0]
  exact pubSorted_getElem_le l hs 0 i (by omega) hi (by omega)

/-- The backward scan never surpasses its starting index. -/
theorem scanIdx_le (arr : List Article) (x : Article) : ∀ k, scanIdx arr x k ≤ k := by
  intro k
  induction k with
  | zero => exact le_rfl
  | succ k ih =>
    rw [scanIdx]
    split
    · exact le_rfl
    · exact Nat.le_succ_of_le ih

/-- The backward scan stops either at index 0 or at an index whose article
publishes strictly before the new one. -/
theorem scanIdx_spec (arr : List Article) (x : Article) :
    ∀ k, scanIdx arr x k = 0 ∨
      x.PublishDate > (arr.getD (scanIdx arr x k) default).PublishDate := by
  intro k
  induction k with
  | zero => exact Or.inl rfl
  | succ k ih =>
    rw [scanIdx]
    split
    · rename_i hc
      exact Or.inr hc
    · exact ih

/-- Every index above the scan result, up to the starting index, holds an
article not publishing strictly before the new one. -/
theorem scanIdx_none_above (arr : List Article) (x : Article) :
    ∀ k m, scanIdx arr x k < m → m ≤ k →
      ¬ x.PublishDate > (arr.getD m default).PublishDate := by
  intro k
  induction k with
  | zero => intro m h1 h2; omega
  | succ k ih =>
    intro m h1 h2
    rw [scanIdx] at h1
    by_cases hc : x.PublishDate > (arr.getD (k + 1) default).PublishDate
    · rw [if_pos hc] at h1; omega
    · rw [if_neg hc] at h1
      rcases Nat.lt_or_ge m (k + 1) with hm | hm
      · exact ih m h1 (by omega)
      · have hmk : m = k + 1 := by omega
        rwa [hmk]

/-- Appending at the end keeps the sequence sorted when the current last
element does not publish after the new one. -/
theorem insert_sorted_append (l : List Article) (x : Article) (hs : PubSorted l)
    (hcond : l.length = 0 ∨
      ¬ (l.getD (l.length - 1) default).PublishDate > x.PublishDate) :
    PubSorted (l ++ [x]) := by
  rw [PubSorted, List.pairwise_append]
  refine ⟨hs, List.pairwise_singleton _ _, ?_⟩
  intro a ha b hb
  rw [List.mem_singleton] at hb
  subst hb
  rcases hcond with h0 | hle
  · rw [List.length_eq_zero] at h0
    subst h0
    simp at ha
  · exact le_trans (pubSorted_le_last l hs a ha) (not_lt.mp hle)

/-- Prepending keeps the sequence sorted when the new article does not
publish after the current first element. -/
theorem insert_sorted_prepend (l : List Article) (x : Article) (hs : PubSorted l)
    (hcond : ¬ x.PublishDate > (l.getD 0 default).PublishDate) :
    PubSorted (x :: l) := by
  rw [PubSorted, List.pairwise_cons]
  exact ⟨fun a ha => le_trans (not_lt.mp hcond) (pubSorted_head_le l hs a ha), hs⟩

/-- Splicing after the backward scan index keeps the sequence sorted when
the new article publishes strictly after the first element and strictly
before the last. -/
theorem insert_sorted_scan (l : List Article) (x : Article) (hs : PubSorted l)
    (hlast : x.PublishDate < (l.getD (l.length - 1) default).PublishDate)
    (hhead : (l.getD 0 default).PublishDate < x.PublishDate) :
    PubSorted (l.take (scanIdx l x (l.length - 2) + 1) ++
      x :: l.drop (scanIdx l x (l.length - 2) + 1)) := by
  have hlen2 : 2 ≤ l.length := by
    rcases Nat.lt_or_ge l.length 2 with h | h
    · exfalso
      have h0 : l.length - 1 = 0 := by omega
      rw [h0] at hlast
      exact absurd hhead (not_lt.mpr (le_of_lt hlast))
    · exact h
  set j := scanIdx l x (l.length - 2) with hjdef
  have hj_le : j ≤ l.length - 2 := scanIdx_le l x (l.length - 2)
  have hj_lt : j < l.length := by omega
  have hj1_lt : j + 1 < l.length := by omega
  have hjx : (l.get ⟨j, hj_lt⟩).PublishDate < x.PublishDate := by
    rcases scanIdx_spec l x (l.length - 2) with h0 | hgt
    · rw [← hjdef] at h0
      have hzero : 0 < l.length := by omega
      rw [List.getD_eq_getElem l default hzero] at hhead
      have heq : l.get ⟨j, hj_lt⟩ = l.get ⟨0, hzero⟩ := by
        simp only [h0]
      rw [heq]
      exact hhead
    · rw [← hjdef] at hgt
      rwa [List.getD_eq_getElem l default hj_lt] at hgt
  have hj1x : x.PublishDate ≤ (l.get ⟨j + 1, hj1_lt⟩).PublishDate := by
    rcases Nat.lt_or_ge (j + 1) (l.length - 1) with hm | hm
    · have hna := scanIdx_none_above l x (l.length - 2) (j + 1) (by omega) (by omega)
      rw [List.getD_eq_getElem l default hj1_lt] at hna
      exact not_lt.mp hna
    · have hj1 : j + 1 = l.length - 1 := by omega
      have hl : l.length - 1 < l.length := by omega
      rw [List.getD_eq_getElem l default hl] at hlast
      have heq2 : l.get ⟨j + 1, hj1_lt⟩ = l.get ⟨l.length - 1, hl⟩ := by
        simp only [hj1]
      rw [heq2]
      exact le_of_lt hlast
  have hxb : ∀ b ∈ l.drop (j + 1), x.PublishDate ≤ b.PublishDate := by
    intro b hb
    obtain ⟨t, ht, rfl⟩ := List.mem_iff_getElem.mp hb
    rw [List.getElem_drop]
    have htl : j + 1 + t < l.length := by
      have := List.length_drop (j + 1) l
      omega
    exact le_trans hj1x (pubSorted_getElem_le l hs (j + 1) (j + 1 + t) (by omega) htl hj1_lt)
  have hax : ∀ a ∈ l.take (j + 1), a.PublishDate < x.PublishDate := by
    intro a ha
    obtain ⟨i, hi, rfl⟩ := List.mem_iff_getElem.mp ha
    rw [List.getElem_take]
    have hij : i ≤ j := by
      have := List.length_take (j + 1) l
      omega
    exact lt_of_le_of_lt (pubSorted_getElem_le l hs i j hij hj_lt (by omega)) hjx
  rw [PubSorted, List.pairwise_append]
  refine ⟨List.Pairwise.sublist (List.take_sublist _ _) hs, ?_, ?_⟩
  · rw [List.pairwise_cons]
    exact ⟨hxb, List.Pairwise.sublist (List.drop_sublist _ _) hs⟩
  · intro a ha b hb
    rcases List.mem_cons.mp hb with rfl | hb2
    · exact le_of_lt (hax a ha)
    · exact le_trans (le_of_lt (hax a ha)) (hxb b hb2)

/-- Create on nil input is a no-op returning nil. -/
theorem create_none (as : ArticleStore) : as.Create none = ((none, none), as) := rfl

/-- Create on an already-present identifier returns the stored article and
leaves the store untouched. -/
theorem create_dup (as : ArticleStore) (art a0 : Article)
    (hm : mLookup as.m (generatedArticleID art.GUID) = some a0) :
    as.Create (some art) = ((some a0, none), as) := by
  simp only [ArticleStore.Create, hm]

/-- Create on a fresh identifier, append-at-end branch. -/
theorem create_fresh_append (as : ArticleStore) (art : Article)
    (hm : mLookup as.m (generatedArticleID art.GUID) = none)
    (hcond : as.a.length = 0 ∨
      ¬ (as.a.getD (as.a.length - 1) default).PublishDate > art.PublishDate) :
    as.Create (some art) =
      ((some { art with ID := generatedArticleID art.GUID }, none),
        { a := as.a ++ [{ art with ID := generatedArticleID art.GUID }],
          m := mInsert as.m (generatedArticleID art.GUID)
            { art with ID := generatedArticleID art.GUID } }) := by
  simp only [ArticleStore.Create, hm]
  rw [if_pos hcond]

/-- Create on a fresh identifier, prepend-at-start branch. -/
theorem create_fresh_prepend (as : ArticleStore) (art : Article)
    (hm : mLookup as.m (generatedArticleID art.GUID) = none)
    (hc1 : ¬ (as.a.length = 0 ∨
      ¬ (as.a.getD (as.a.length - 1) default).PublishDate > art.PublishDate))
    (hc2 : ¬ art.PublishDate > (as.a.getD 0 default).PublishDate) :
    as.Create (some art) =
      ((some { art with ID := generatedArticleID art.GUID }, none),
        { a := { art with ID := generatedArticleID art.GUID } :: as.a,
          m := mInsert as.m (generatedArticleID art.GUID)
            { art with ID := generatedArticleID art.GUID } }) := by
  simp only [ArticleStore.Create, hm]
  rw [if_neg hc1, if_pos hc2]

/-- Create on a fresh identifier, backward-scan splice branch. -/
theorem create_fresh_scan (as : ArticleStore) (art : Article)
    (hm : mLookup as.m (generatedArticleID art.GUID) = none)
    (hc1 : ¬ (as.a.length = 0 ∨
      ¬ (as.a.getD (as.a.length - 1) default).PublishDate > art.PublishDate))
    (hc2 : art.PublishDate > (as.a.getD 0 default).PublishDate) :
    as.Create (some art) =
      ((some { art with ID := generatedArticleID art.GUID }, none),
        { a := as.a.take (scanIdx as.a { art with ID := generatedArticleID art.GUID }
              (as.a.length - 2) + 1) ++
            { art with ID := generatedArticleID art.GUID } ::
              as.a.drop (scanIdx as.a { art with ID := generatedArticleID art.GUID }
              (as.a.length - 2) + 1),
          m := mInsert as.m (generatedArticleID art.GUID)
            { art with ID := generatedArticleID art.GUID } }) := by
  simp only [ArticleStore.Create, hm]
  rw [if_neg hc1, if_neg (not_not_intro hc2)]

/-- Create keeps the sequence sorted by publish date. -/
theorem create_preserves_sorted (as : ArticleStore) (x : Option Article)
    (hs : PubSorted as.a) : PubSorted ((as.Create x).2).a := by
  match x with
  | none => rw [create_none]; exact hs
  | some art =>
    rcases hm : mLookup as.m (generatedArticleID art.GUID) with _ | a0
    case some => rw [create_dup as art a0 hm]; exact hs
    case none =>
      by_cases hc1 : as.a.length = 0 ∨
          ¬ (as.a.getD (as.a.length - 1) default).PublishDate > art.PublishDate
      · rw [create_fresh_append as art hm hc1]
        exact insert_sorted_append as.a _ hs hc1
      · by_cases hc2 : art.PublishDate > (as.a.getD 0 default).PublishDate
        · rw [create_fresh_scan as art hm hc1 hc2]
          push_neg at hc1
          exact insert_sorted_scan as.a _ hs hc1.2 hc2
        · rw [create_fresh_prepend as art hm hc1 hc2]
          exact insert_sorted_prepend as.a _ hs hc2

/-- Folding Create over any input list preserves sortedness. -/
theorem foldl_create_sorted :
    ∀ (arts : List Article) (st : ArticleStore), PubSorted st.a →
      PubSorted (arts.foldl (fun s x => (s.Create (some x)).2) st).a := by
  intro arts
  induction arts with
  | nil => intro st h; exact h
  | cons a rest ih =>
    intro st h
    exact ih _ (create_preserves_sorted st (some a) h)

/-- Any store built by Create calls from a fresh store is sorted. -/
theorem createAll_sorted (arts : List Article) : PubSorted (createAll arts).a :=
  foldl_create_sorted arts NewArticleStore List.Pairwise.nil

/-- List with the empty cursor walks the sequence from its start. -/
theorem listArticles_empty_cursor (st : ArticleStore) (P : Int) (feed : String)
    (cats : List String) :
    st.ListArticles "" P feed cats = Except.ok (collect cats feed P st.a 0) := by
  show (match findArticleCursorIndex st.a "" with
    | none => Except.error "could not find provided cursor"
    | some i => Except.ok (collect cats feed P (st.a.drop i) 0)) = _
  rw [findCursor_empty]
  show Except.ok (collect cats feed P (st.a.drop 0) 0) = Except.ok (collect cats feed P st.a 0)
  rw [List.drop_zero]

/-- List with no cursor, no filters and pageSize 0 returns the entire stored
sequence. -/
theorem listArticles_no_filters (st : ArticleStore) :
    st.ListArticles "" 0 "" [] = Except.ok st.a := by
  rw [listArticles_empty_cursor, collect_all]

/-- An article with only GUID and publish date set, matching the zero-valued
article literals used throughout the repository tests. -/
def articleFixture (g : String) (t : Int) : Article :=
  { FeedID := "", ID := "", GUID := g, Title := "", Link := "", Comments := "",
    PublishDate := t, Categories := [], Enclosures := [], Description := "",
    Author := "", Content := "", FullText := "" }

/-- Claim C1: for every finite sequence of Create calls with non-nil articles
of arbitrary publish timestamps and pairwise distinct GUIDs, starting from a
fresh store, a subsequent List with empty cursor, no feed filter, no category
filters and pageSize 0 returns all stored articles in non-descending order of
publish timestamp. -/
theorem claimC1_sort_invariant (arts : List Article)
    (hg : arts.Pairwise (fun a b => a.GUID ≠ b.GUID)) :
    (createAll arts).ListArticles "" 0 "" [] = Except.ok (createAll arts).a ∧
      PubSorted (createAll arts).a :=
  ⟨listArticles_no_filters (createAll arts), createAll_sorted arts⟩

/-- Witness for C1 at the concrete scenario of the spec: timestamps 1, 3, 2. -/
theorem claimC1_witness :
    ([articleFixture "first" 1, articleFixture "third" 3,
        articleFixture "second" 2].Pairwise (fun a b => a.GUID ≠ b.GUID)) ∧
      ((createAll [articleFixture "first" 1, articleFixture "third" 3,
          articleFixture "second" 2]).ListArticles "" 0 "" [] =
        Except.ok (createAll [articleFixture "first" 1, articleFixture "third" 3,
          articleFixture "second" 2]).a ∧
        PubSorted (createAll [articleFixture "first" 1, articleFixture "third" 3,
          articleFixture "second" 2]).a) :=
  ⟨by decide, claimC1_sort_invariant _ (by decide)⟩

/-- A prefix of uniformly satisfying elements followed by a failing (or
absent) element determines takeWhile and dropWhile as take and drop. -/
theorem takeWhile_eq_take (p : Article → Bool) :
    ∀ (l : List Article) (n : Nat) (hn : n ≤ l.length),
      (∀ (i : Nat) (h : i < n), p (l.get ⟨i, lt_of_lt_of_le h hn⟩) = true) →
      (n = l.length ∨ p (l.getD n default) = false) →
      l.takeWhile p = l.take n ∧ l.dropWhile p = l.drop n := by
  intro l
  induction l with
  | nil =>
    intro n hn _ _
    have hn0 : n = 0 := by simpa using hn
    subst hn0
    exact ⟨rfl, rfl⟩
  | cons x xs ih =>
    intro n hn hall hend
    match n with
    | 0 =>
      have hpx : p x = false := by
        rcases hend with h | h
        · exact absurd h (by simp)
        · simpa using h
      rw [List.takeWhile_cons, List.dropWhile_cons]
      simp [hpx]
    | n + 1 =>
      have hpx : p x = true := hall 0 (by omega)
      have hn2 : n ≤ xs.length := by simpa using hn
      have hall2 : ∀ (i : Nat) (h : i < n), p (xs.get ⟨i, lt_of_lt_of_le h hn2⟩) = true := by
        intro i h
        have h2 := hall (i + 1) (by omega)
        simpa using h2
      have hend2 : n = xs.length ∨ p (xs.getD n default) = false := by
        rcases hend with h | h
        · left; simpa using h
        · right; simpa using h
      obtain ⟨h1, h2⟩ := ih n hn2 hall2 hend2
      rw [List.takeWhile_cons, List.dropWhile_cons]
      simp [hpx, h1, h2]

/-- Positioning facts about the backward-scan index under the guards of the
splice branch: it points at an article publishing strictly earlier than the
new one, and the following article publishes no earlier than the new one. -/
theorem scanIdx_bounds (l : List Article) (x : Article) (hs : PubSorted l)
    (hlast : x.PublishDate < (l.getD (l.length - 1) default).PublishDate)
    (hhead : (l.getD 0 default).PublishDate < x.PublishDate) :
    2 ≤ l.length ∧ scanIdx l x (l.length - 2) + 1 < l.length ∧
      (l.getD (scanIdx l x (l.length - 2)) default).PublishDate < x.PublishDate ∧
      x.PublishDate ≤ (l.getD (scanIdx l x (l.length - 2) + 1) default).PublishDate := by
  have hlen2 : 2 ≤ l.length := by
    rcases Nat.lt_or_ge l.length 2 with h | h
    · exfalso
      have h0 : l.length - 1 = 0 := by omega
      rw [h0] at hlast
      exact absurd hhead (not_lt.mpr (le_of_lt hlast))
    · exact h
  set j := scanIdx l x (l.length - 2) with hjdef
  have hj_le : j ≤ l.length - 2 := scanIdx_le l x (l.length - 2)
  have hj_lt : j < l.length := by omega
  have hj1_lt : j + 1 < l.length := by omega
  refine ⟨hlen2, hj1_lt, ?_, ?_⟩
  · rcases scanIdx_spec l x (l.length - 2) with h0 | hgt
    · rw [← hjdef] at h0
      rw [List.getD_eq_getElem l default hj_lt]
      have hzero : 0 < l.length := by omega
      rw [List.getD_eq_getElem l default hzero] at hhead
      simp only [h0]
      exact hhead
    · rw [← hjdef] at hgt
      exact hgt
  · rcases Nat.lt_or_ge (j + 1) (l.length - 1) with hm | hm
    · have hna := scanIdx_none_above l x (l.length - 2) (j + 1) (by omega) (by omega)
      exact not_lt.mp hna
    · have hj1 : j + 1 = l.length - 1 := by omega
      rw [hj1]
      exact le_of_lt hlast

/-- Under the splice-branch guards the scan splice point coincides with the
boundary between the strictly-earlier prefix and the rest. -/
theorem scan_splice_eq_takeWhile (l : List Article) (x : Article) (hs : PubSorted l)
    (hlast : x.PublishDate < (l.getD (l.length - 1) default).PublishDate)
    (hhead : (l.getD 0 default).PublishDate < x.PublishDate) :
    l.take (scanIdx l x (l.length - 2) + 1) =
        l.takeWhile (fun b => decide (b.PublishDate < x.PublishDate)) ∧
      l.drop (scanIdx l x (l.length - 2) + 1) =
        l.dropWhile (fun b => decide (b.PublishDate < x.PublishDate)) := by
  obtain ⟨hlen2, hj1_lt, hjx, hj1x⟩ := scanIdx_bounds l x hs hlast hhead
  set j := scanIdx l x (l.length - 2) with hjdef
  have hj_lt : j < l.length := by omega
  rw [List.getD_eq_getElem l default hj_lt] at hjx
  have h := takeWhile_eq_take (fun b => decide (b.PublishDate < x.PublishDate)) l (j + 1)
    (by omega)
    (fun i hi => by
      have hile : i < l.length := by omega
      have hle : (l.get ⟨i, hile⟩).PublishDate < x.PublishDate :=
        lt_of_le_of_lt (pubSorted_getElem_le l hs i j (by omega) hj_lt hile) hjx
      simpa using hle)
    (Or.inr (by simpa using not_lt.mpr hj1x))
  exact ⟨h.1.symm, h.2.symm⟩

set_option maxRecDepth 10000 in
/-- Counterexample to C4: starting from stored timestamps [1, 2], creating a
third article with timestamp 1 yields the GUID order ["g3", "g1", "g2"]: the
new tie is prepended before the stored equal-timestamp article "g1", whereas
the claim requires it to be placed after all existing articles with
equal-or-earlier timestamps, i.e. the order ["g1", "g3", "g2"]. -/
theorem claimC4_counterexample :
    ((createAll [articleFixture "g1" 1, articleFixture "g2" 2,
        articleFixture "g3" 1]).a.map (fun b => b.GUID)) = ["g3", "g1", "g2"] ∧
      (["g3", "g1", "g2"] : List String) ≠ ["g1", "g3", "g2"] := by
  constructor
  · decide
  · decide

/-- Claim C4 amended: a new article whose timestamp is not earlier than the
current last element is appended after it; any other new article is spliced
immediately after the longest prefix of strictly earlier timestamps, hence
before every stored article with an equal timestamp. -/
theorem claimC4_amended (as : ArticleStore) (art : Article) (hs : PubSorted as.a)
    (hm : mLookup as.m (generatedArticleID art.GUID) = none) :
    ((as.Create (some art)).2).a =
      if as.a.length = 0 ∨
          ¬ (as.a.getD (as.a.length - 1) default).PublishDate > art.PublishDate then
        as.a ++ [{ art with ID := generatedArticleID art.GUID }]
      else
        as.a.takeWhile (fun b => decide (b.PublishDate < art.PublishDate)) ++
          { art with ID := generatedArticleID art.GUID } ::
            as.a.dropWhile (fun b => decide (b.PublishDate < art.PublishDate)) := by
  by_cases hc1 : as.a.length = 0 ∨
      ¬ (as.a.getD (as.a.length - 1) default).PublishDate > art.PublishDate
  · rw [create_fresh_append as art hm hc1, if_pos hc1]
  · rw [if_neg hc1]
    by_cases hc2 : art.PublishDate > (as.a.getD 0 default).PublishDate
    · rw [create_fresh_scan as art hm hc1 hc2]
      push_neg at hc1
      obtain ⟨ht, hd⟩ := scan_splice_eq_takeWhile as.a
        { art with ID := generatedArticleID art.GUID } hs hc1.2 hc2
      rw [ht, hd]
    · rw [create_fresh_prepend as art hm hc1 hc2]
      have h0 := takeWhile_eq_take (fun b => decide (b.PublishDate < art.PublishDate)) as.a 0
        (by omega) (fun i hi => absurd hi (by omega)) (Or.inr (by simpa using hc2))
      rw [h0.1, h0.2]
      simp

set_option maxRecDepth 10000 in
/-- Witness for the amended C4 at the counterexample input: splicing the tie
before the stored equal-timestamp article is exactly the prepend produced by
the takeWhile boundary. -/
theorem claimC4_amended_witness :
    PubSorted (createAll [articleFixture "g1" 1, articleFixture "g2" 2]).a ∧
      mLookup (createAll [articleFixture "g1" 1, articleFixture "g2" 2]).m
        (generatedArticleID (articleFixture "g3" 1).GUID) = none ∧
      (((createAll [articleFixture "g1" 1, articleFixture "g2" 2]).Create
          (some (articleFixture "g3" 1))).2).a =
        if (createAll [articleFixture "g1" 1, articleFixture "g2" 2]).a.length = 0 ∨
            ¬ ((createAll [articleFixture "g1" 1, articleFixture "g2" 2]).a.getD
              ((createAll [articleFixture "g1" 1, articleFixture "g2" 2]).a.length - 1)
                default).PublishDate > (articleFixture "g3" 1).PublishDate then
          (createAll [articleFixture "g1" 1, articleFixture "g2" 2]).a ++
            [{ articleFixture "g3" 1 with
                ID := generatedArticleID (articleFixture "g3" 1).GUID }]
        else
          (createAll [articleFixture "g1" 1, articleFixture "g2" 2]).a.takeWhile
              (fun b => decide (b.PublishDate < (articleFixture "g3" 1).PublishDate)) ++
            { articleFixture "g3" 1 with
                ID := generatedArticleID (articleFixture "g3" 1).GUID } ::
              (createAll [articleFixture "g1" 1, articleFixture "g2" 2]).a.dropWhile
                (fun b => decide (b.PublishDate < (articleFixture "g3" 1).PublishDate)) :=
  ⟨by unfold PubSorted; decide, by decide,
    claimC4_amended (createAll [articleFixture "g1" 1, articleFixture "g2" 2])
      (articleFixture "g3" 1) (by unfold PubSorted; decide) (by decide)⟩

/-- Looking up the key just inserted into the index finds its article. -/
theorem mLookup_mInsert (m : List (String × Article)) (k : String) (v : Article) :
    mLookup (mInsert m k v) k = some v := by
  simp [mInsert, mLookup]

/-- Consolidated facts about Create on a fresh identifier: the returned pair,
the updated index, and the updated sequence up to permutation. -/
theorem create_fresh_parts (as : ArticleStore) (art : Article)
    (hm : mLookup as.m (generatedArticleID art.GUID) = none) :
    (as.Create (some art)).1.1 = some { art with ID := generatedArticleID art.GUID } ∧
      (as.Create (some art)).1.2 = none ∧
      ((as.Create (some art)).2).m = mInsert as.m (generatedArticleID art.GUID)
        { art with ID := generatedArticleID art.GUID } ∧
      ((as.Create (some art)).2).a.length = as.a.length + 1 ∧
      ((as.Create (some art)).2).a.Perm
        ({ art with ID := generatedArticleID art.GUID } :: as.a) := by
  by_cases hc1 : as.a.length = 0 ∨
      ¬ (as.a.getD (as.a.length - 1) default).PublishDate > art.PublishDate
  · rw [create_fresh_append as art hm hc1]
    exact ⟨rfl, rfl, rfl, by simp, List.perm_append_singleton _ _⟩
  · by_cases hc2 : art.PublishDate > (as.a.getD 0 default).PublishDate
    · rw [create_fresh_scan as art hm hc1 hc2]
      have hperm : (as.a.take (scanIdx as.a { art with ID := generatedArticleID art.GUID }
            (as.a.length - 2) + 1) ++
          { art with ID := generatedArticleID art.GUID } ::
            as.a.drop (scanIdx as.a { art with ID := generatedArticleID art.GUID }
            (as.a.length - 2) + 1)).Perm
          ({ art with ID := generatedArticleID art.GUID } :: as.a) := by
        refine List.Perm.trans List.perm_middle ?_
        rw [List.take_append_drop]
      exact ⟨rfl, rfl, rfl, by simpa using hperm.length_eq, hperm⟩
    · rw [create_fresh_prepend as art hm hc1 hc2]
      exact ⟨rfl, rfl, rfl, by simp, List.Perm.refl _⟩

/-- Claim C3: Create is idempotent by GUID: after a first Create, a second
Create with any article sharing the GUID returns the article stored by the
first call, reports no error, leaves the store unchanged, and the store grew
by at most one across the two calls. -/
theorem claimC3_idempotent_create (as : ArticleStore) (a1 a2 : Article)
    (hg : a2.GUID = a1.GUID) :
    (as.Create (some a1)).1.2 = none ∧
      ((as.Create (some a1)).2).Create (some a2) =
        (((as.Create (some a1)).1.1, none), (as.Create (some a1)).2) ∧
      ((as.Create (some a1)).2).a.length ≤ as.a.length + 1 := by
  rcases hm : mLookup as.m (generatedArticleID a1.GUID) with _ | a0
  · obtain ⟨hr, he, hmm, hlen, _⟩ := create_fresh_parts as a1 hm
    have hlook : mLookup ((as.Create (some a1)).2).m (generatedArticleID a2.GUID) =
        some { a1 with ID := generatedArticleID a1.GUID } := by
      rw [hg, hmm, mLookup_mInsert]
    refine ⟨he, ?_, by omega⟩
    rw [create_dup _ a2 _ hlook, hr]
  · rw [create_dup as a1 a0 hm]
    refine ⟨rfl, ?_, Nat.le_succ _⟩
    rw [create_dup as a2 a0 (by rw [hg]; exact hm)]

set_option maxRecDepth 10000 in
/-- Witness for C3: two articles with the same GUID and different fields. -/
theorem claimC3_witness :
    (articleFixture "w" 7).GUID = (articleFixture "w" 5).GUID ∧
      ((NewArticleStore.Create (some (articleFixture "w" 5))).1.2 = none ∧
        ((NewArticleStore.Create (some (articleFixture "w" 5))).2).Create
            (some (articleFixture "w" 7)) =
          (((NewArticleStore.Create (some (articleFixture "w" 5))).1.1, none),
            (NewArticleStore.Create (some (articleFixture "w" 5))).2) ∧
        ((NewArticleStore.Create (some (articleFixture "w" 5))).2).a.length ≤
          NewArticleStore.a.length + 1) :=
  ⟨rfl, claimC3_idempotent_create NewArticleStore (articleFixture "w" 5)
    (articleFixture "w" 7) rfl⟩

/-- Claim C10: on a fresh identifier Create stores and returns exactly the
input article with only the ID field replaced by the generated identifier;
on a present identifier it returns the stored article and leaves the store
(and the input value it would otherwise have stamped) untouched. -/
theorem claimC10_frame (as : ArticleStore) (art : Article) :
    (mLookup as.m (generatedArticleID art.GUID) = none →
      (as.Create (some art)).1.1 = some { art with ID := generatedArticleID art.GUID } ∧
        { art with ID := generatedArticleID art.GUID } ∈ ((as.Create (some art)).2).a) ∧
      (∀ a0, mLookup as.m (generatedArticleID art.GUID) = some a0 →
        as.Create (some art) = ((some a0, none), as)) := by
  constructor
  · intro hm
    obtain ⟨hr, _, _, _, hperm⟩ := create_fresh_parts as art hm
    exact ⟨hr, hperm.mem_iff.mpr (List.mem_cons_self _ _)⟩
  · intro a0 hm
    exact create_dup as art a0 hm

/-- Lookup fails exactly when the key is absent from the index keys. -/
theorem mLookup_eq_none_iff (m : List (String × Article)) (k : String) :
    mLookup m k = none ↔ k ∉ m.map Prod.fst := by
  induction m with
  | nil => simp [mLookup]
  | cons p rest ih =>
    rcases p with ⟨k1, v⟩
    by_cases hk : k1 = k
    · subst hk
      simp [mLookup, ih]
    · simp only [mLookup, if_neg hk, List.map_cons, List.mem_cons, ih]
      constructor
      · intro h hcon
        rcases hcon with hcon | hcon
        · exact hk hcon.symm
        · exact h hcon
      · intro h hcon
        exact h (Or.inr hcon)

/-- The bijection between the ordered sequence and the identifier index:
distinct stored identifiers, distinct index keys, equal cardinality, every
stored article found under its identifier, and every index entry pointing at
a stored article under its own identifier. -/
def StoreBijection (as : ArticleStore) : Prop :=
  (as.a.map Article.ID).Nodup ∧ (as.m.map Prod.fst).Nodup ∧
    as.m.length = as.a.length ∧
    (∀ art ∈ as.a, mLookup as.m art.ID = some art) ∧
    (∀ p ∈ as.m, p.2 ∈ as.a ∧ p.2.ID = p.1)

/-- The bijection invariant together with nonemptiness of stored
identifiers. -/
def StoreWF (as : ArticleStore) : Prop :=
  StoreBijection as ∧ ∀ art ∈ as.a, art.ID ≠ ""

/-- Generated article identifiers are never the empty string. -/
theorem generatedArticleID_ne_empty (g : String) : generatedArticleID g ≠ "" :=
  uuidNewSHA1_ne_empty uuidNamespaceBytes (strBytes g)

/-- The fresh store is well formed. -/
theorem storeWF_new : StoreWF NewArticleStore := by
  refine ⟨⟨?_, ?_, rfl, ?_, ?_⟩, ?_⟩ <;> simp [NewArticleStore]

/-- Reset restores a well-formed store. -/
theorem storeWF_reset (as : ArticleStore) : StoreWF (as.Reset) := by
  refine ⟨⟨?_, ?_, rfl, ?_, ?_⟩, ?_⟩ <;> simp [ArticleStore.Reset]

/-- Create preserves well-formedness. -/
theorem storeWF_create (as : ArticleStore) (x : Option Article) (h : StoreWF as) :
    StoreWF ((as.Create x).2) := by
  match x with
  | none => rw [create_none]; exact h
  | some art =>
    rcases hm : mLookup as.m (generatedArticleID art.GUID) with _ | a0
    case some => rw [create_dup as art a0 hm]; exact h
    case none =>
      obtain ⟨⟨hnd, hknd, hlen, hfwd, hbwd⟩, hne⟩ := h
      obtain ⟨_, _, hmm, hlena, hperm⟩ := create_fresh_parts as art hm
      have hgid_not : generatedArticleID art.GUID ∉ as.a.map Article.ID := by
        intro hmem
        obtain ⟨b, hb, hbid⟩ := List.mem_map.mp hmem
        have hlk := hfwd b hb
        rw [hbid, hm] at hlk
        exact Option.noConfusion hlk
      have hgid_key : generatedArticleID art.GUID ∉ as.m.map Prod.fst :=
        (mLookup_eq_none_iff as.m (generatedArticleID art.GUID)).mp hm
      refine ⟨⟨?_, ?_, ?_, ?_, ?_⟩, ?_⟩
      · rw [(hperm.map Article.ID).nodup_iff]
        rw [List.map_cons, List.nodup_cons]
        exact ⟨hgid_not, hnd⟩
      · rw [hmm]
        rw [show (mInsert as.m (generatedArticleID art.GUID)
          { art with ID := generatedArticleID art.GUID }).map Prod.fst =
            generatedArticleID art.GUID :: as.m.map Prod.fst from rfl]
        rw [List.nodup_cons]
        exact ⟨hgid_key, hknd⟩
      · rw [hmm, hlena]
        rw [show (mInsert as.m (generatedArticleID art.GUID)
          { art with ID := generatedArticleID art.GUID }).length = as.m.length + 1 from rfl]
        omega
      · intro b hb
        rw [hperm.mem_iff, List.mem_cons] at hb
        rcases hb with rfl | hb
        · rw [hmm]
          exact mLookup_mInsert as.m _ _
        · have hbne : b.ID ≠ generatedArticleID art.GUID := by
            intro hcon
            have hlk := hfwd b hb
            rw [hcon, hm] at hlk
            exact Option.noConfusion hlk
          rw [hmm]
          rw [show mLookup (mInsert as.m (generatedArticleID art.GUID)
            { art with ID := generatedArticleID art.GUID }) b.ID =
              if generatedArticleID art.GUID = b.ID then
                some { art with ID := generatedArticleID art.GUID }
              else mLookup as.m b.ID from rfl]
          rw [if_neg (fun hcon => hbne hcon.symm)]
          exact hfwd b hb
      · intro p hp
        rw [hmm] at hp
        rcases List.mem_cons.mp hp with rfl | hp
        · exact ⟨hperm.mem_iff.mpr (List.mem_cons_self _ _), rfl⟩
        · obtain ⟨hpa, hpid⟩ := hbwd p hp
          exact ⟨hperm.mem_iff.mpr (List.mem_cons_of_mem _ hpa), hpid⟩
      · intro b hb
        rw [hperm.mem_iff, List.mem_cons] at hb
        rcases hb with rfl | hb
        · exact generatedArticleID_ne_empty art.GUID
        · exact hne b hb

/-- Well-formedness of every store reachable by folding Create calls. -/
theorem storeWF_foldl_create :
    ∀ (arts : List Article) (st : ArticleStore), StoreWF st →
      StoreWF (arts.foldl (fun s x => (s.Create (some x)).2) st) := by
  intro arts
  induction arts with
  | nil => intro st h; exact h
  | cons a rest ih =>
    intro st h
    exact ih _ (storeWF_create st (some a) h)

/-- Every store built by Create calls from a fresh store is well formed. -/
theorem storeWF_createAll (arts : List Article) : StoreWF (createAll arts) :=
  storeWF_foldl_create arts NewArticleStore storeWF_new

/-- One store operation of claim C9: a Create call or a Reset. -/
inductive StoreOp where
  | create (x : Option Article)
  | reset

/-- Apply one operation to the store. -/
def applyOp (as : ArticleStore) : StoreOp → ArticleStore
  | StoreOp.create x => (as.Create x).2
  | StoreOp.reset => as.Reset

/-- Run a sequence of operations against a fresh store. -/
def runOps (ops : List StoreOp) : ArticleStore := ops.foldl applyOp NewArticleStore

/-- Well-formedness of every reachable store. -/
theorem storeWF_runOps (ops : List StoreOp) : StoreWF (runOps ops) := by
  suffices h : ∀ (ops : List StoreOp) (st : ArticleStore), StoreWF st →
      StoreWF (ops.foldl applyOp st) from h ops NewArticleStore storeWF_new
  intro ops
  induction ops with
  | nil => intro st h; exact h
  | cons op rest ih =>
    intro st h
    refine ih _ ?_
    match op with
    | StoreOp.create x => exact storeWF_create st x h
    | StoreOp.reset => exact storeWF_reset st

/-- Claim C9: in every store state reachable by Create and Reset operations
from a fresh store, the sequence and the identifier index are in bijection:
stored identifiers are pairwise distinct, index keys are pairwise distinct,
the two containers have the same cardinality, each stored article is found in
the index under its identifier, and each index entry maps its key to a stored
article carrying that identifier. -/
theorem claimC9_bijection (ops : List StoreOp) : StoreBijection (runOps ops) :=
  (storeWF_runOps ops).1

set_option maxRecDepth 10000 in
/-- Witness for C10: a fresh create on an empty store, then a duplicate
create with a different timestamp. -/
theorem claimC10_witness :
    (mLookup NewArticleStore.m (generatedArticleID (articleFixture "w" 5).GUID) = none ∧
      (NewArticleStore.Create (some (articleFixture "w" 5))).1.1 =
        some { articleFixture "w" 5 with
          ID := generatedArticleID (articleFixture "w" 5).GUID } ∧
      { articleFixture "w" 5 with ID := generatedArticleID (articleFixture "w" 5).GUID } ∈
        ((NewArticleStore.Create (some (articleFixture "w" 5))).2).a) ∧
    (mLookup ((NewArticleStore.Create (some (articleFixture "w" 5))).2).m
        (generatedArticleID (articleFixture "w" 7).GUID) =
      some { articleFixture "w" 5 with
        ID := generatedArticleID (articleFixture "w" 5).GUID } ∧
      ((NewArticleStore.Create (some (articleFixture "w" 5))).2).Create
          (some (articleFixture "w" 7)) =
        ((some { articleFixture "w" 5 with
            ID := generatedArticleID (articleFixture "w" 5).GUID }, none),
          (NewArticleStore.Create (some (articleFixture "w" 5))).2)) :=
  ⟨⟨rfl, (claimC10_frame NewArticleStore (articleFixture "w" 5)).1 rfl⟩,
    ⟨by decide, (claimC10_frame _ (articleFixture "w" 7)).2 _ (by decide)⟩⟩

/-- The identifier of the last article of a page, as the paginating caller
reads it. -/
def lastIdOf (page : List Article) : String := (page.getLastD default).ID

/-- The caller loop of claim C2: call List with the current cursor, page
size P and no filters; stop at an empty page; otherwise continue from the
identifier of the last article returned.  The fuel bounds the number of
calls, and exhausting it is reported as an error distinct from normal
termination. -/
def paginateFrom (as : ArticleStore) (P : Int) : Nat → String → Except String (List Article)
  | 0, _ => Except.error "out of fuel"
  | fuel + 1, cursor =>
    match as.ListArticles cursor P "" [] with
    | Except.error e => Except.error e
    | Except.ok [] => Except.ok []
    | Except.ok (x :: xs) =>
      match paginateFrom as P fuel (lastIdOf (x :: xs)) with
      | Except.error e => Except.error e
      | Except.ok rest => Except.ok ((x :: xs) ++ rest)

/-- getLastD of a nonempty list is its positional last element. -/
theorem getLastD_cons_eq_getElem (x : Article) (l : List Article) :
    (x :: l).getLastD default = (x :: l)[l.length] := by
  rw [List.getLastD_eq_getLast?, List.getLast?_eq_getLast (x :: l) (List.cons_ne_nil x l),
    Option.getD_some, List.getLast_eq_getElem]
  simp

/-- Taking k elements and dropping min k length reassembles the list. -/
theorem take_min_append_drop (l : List Article) (k : Nat) :
    l.take k ++ l.drop (min k l.length) = l := by
  rcases Nat.le_total k l.length with h | h
  · rw [Nat.min_eq_left h, List.take_append_drop]
  · rw [Nat.min_eq_right h, List.drop_length, List.take_of_length_le h, List.append_nil]

/-- A cursor equal to the identifier at position i resolves to i + 1. -/
theorem findCursor_at_index (l : List Article) (hnd : (l.map Article.ID).Nodup)
    (hne : ∀ b ∈ l, b.ID ≠ "") (i : Nat) (h : i < l.length) :
    findArticleCursorIndex l l[i].ID = some (i + 1) := by
  rw [findArticleCursorIndex, if_neg (hne _ (l.getElem_mem h))]
  rw [findIdx?_id_nodup l hnd i h]

/-- A no-filter List call from the cursor at position i walks the sequence
from position i + 1. -/
theorem listArticles_at_index (st : ArticleStore) (hnd : (st.a.map Article.ID).Nodup)
    (hne : ∀ b ∈ st.a, b.ID ≠ "") (P : Int) (i : Nat) (h : i < st.a.length) :
    st.ListArticles st.a[i].ID P "" [] =
      Except.ok (collect [] "" P (st.a.drop (i + 1)) 0) := by
  show (match findArticleCursorIndex st.a st.a[i].ID with
    | none => Except.error "could not find provided cursor"
    | some k => Except.ok (collect [] "" P (st.a.drop k) 0)) = _
  rw [findCursor_at_index st.a hnd hne i h]

/-- Resuming pagination from the identifier at position i yields exactly the
articles after position i, in order. -/
theorem paginate_from_index (st : ArticleStore) (hnd : (st.a.map Article.ID).Nodup)
    (hne : ∀ b ∈ st.a, b.ID ≠ "") (P : Int) (hP : 1 ≤ P) :
    ∀ (fuel i : Nat) (h : i < st.a.length), st.a.length - i ≤ fuel →
      paginateFrom st P fuel st.a[i].ID = Except.ok (st.a.drop (i + 1)) := by
  intro fuel
  induction fuel with
  | zero => intro i h hf; omega
  | succ fuel ih =>
    intro i h hf
    have hpage := listArticles_at_index st hnd hne P i h
    rw [collect_page _ P hP] at hpage
    show (match st.ListArticles st.a[i].ID P "" [] with
      | Except.error e => Except.error e
      | Except.ok [] => Except.ok []
      | Except.ok (x :: xs) =>
        match paginateFrom st P fuel (lastIdOf (x :: xs)) with
        | Except.error e => Except.error e
        | Except.ok rest => Except.ok ((x :: xs) ++ rest)) = _
    rw [hpage]
    rcases hdrop : st.a.drop (i + 1) with _ | ⟨y, ys⟩
    · rw [List.take_nil]
    · obtain ⟨k, hk⟩ : ∃ k, P.toNat = k + 1 := ⟨P.toNat - 1, by omega⟩
      rw [hk, List.take_succ_cons]
      show (match paginateFrom st P fuel (lastIdOf (y :: ys.take k)) with
        | Except.error e => Except.error e
        | Except.ok rest => Except.ok ((y :: ys.take k) ++ rest)) =
        Except.ok (y :: ys)
      have hlen_drop : ys.length + 1 = st.a.length - (i + 1) := by
        have h1 := List.length_drop (i + 1) st.a
        rw [hdrop] at h1
        simpa using h1
      have hj : i + 1 + min k ys.length < st.a.length := by omega
      have hmlt : min k ys.length < (st.a.drop (i + 1)).length := by
        rw [hdrop, List.length_cons]
        omega
      have hstep : (st.a.drop (i + 1))[min k ys.length] =
          st.a[i + 1 + min k ys.length] := by
        rw [List.getElem_drop]
      have hmin : (ys.take k).length = min k ys.length := List.length_take k ys
      have hgen : ∀ (t : Nat) (ht1 : t < (y :: ys.take k).length)
          (ht2 : t < (y :: ys).length),
          (y :: ys.take k)[t] = (y :: ys)[t] := by
        intro t ht1 ht2
        show ((y :: ys).take (k + 1))[t] = (y :: ys)[t]
        rw [List.getElem_take]
      have hlast : lastIdOf (y :: ys.take k) =
          st.a[i + 1 + min k ys.length].ID := by
        rw [lastIdOf]
        congr 1
        rw [getLastD_cons_eq_getElem y (ys.take k), ← hstep]
        simp only [hdrop]
        simp only [← hmin]
        exact hgen (ys.take k).length (by simp)
          (by rw [hmin, List.length_cons]; omega)
      rw [hlast, ih (i + 1 + min k ys.length) hj (by omega)]
      show Except.ok ((y :: ys.take k) ++ st.a.drop (i + 1 + min k ys.length + 1)) =
        Except.ok (y :: ys)
      have hdd : st.a.drop (i + 1 + min k ys.length + 1) = ys.drop (min k ys.length) := by
        have h1 := List.drop_drop (min k ys.length + 1) (i + 1) st.a
        rw [hdrop] at h1
        rw [show i + 1 + min k ys.length + 1 = i + 1 + (min k ys.length + 1) by omega, ← h1]
        rw [List.drop_succ_cons]
      rw [hdd]
      rw [show (y :: ys.take k) ++ ys.drop (min k ys.length) =
        y :: (ys.take k ++ ys.drop (min k ys.length)) from rfl]
      rw [take_min_append_drop ys k]

/-- Pagination starting at the empty cursor with enough fuel returns the
whole stored sequence. -/
theorem paginate_full (st : ArticleStore) (hnd : (st.a.map Article.ID).Nodup)
    (hne : ∀ b ∈ st.a, b.ID ≠ "") (P : Int) (hP : 1 ≤ P) :
    paginateFrom st P (st.a.length + 1) "" = Except.ok st.a := by
  have hpage := listArticles_empty_cursor st P "" []
  rw [collect_page _ P hP] at hpage
  show (match st.ListArticles "" P "" [] with
    | Except.error e => Except.error e
    | Except.ok [] => Except.ok []
    | Except.ok (x :: xs) =>
      match paginateFrom st P st.a.length (lastIdOf (x :: xs)) with
      | Except.error e => Except.error e
      | Except.ok rest => Except.ok ((x :: xs) ++ rest)) = Except.ok st.a
  rw [hpage]
  rcases hl : st.a with _ | ⟨y, ys⟩
  · rw [List.take_nil]
  · obtain ⟨k, hk⟩ : ∃ k, P.toNat = k + 1 := ⟨P.toNat - 1, by omega⟩
    rw [hk, List.take_succ_cons]
    show (match paginateFrom st P (y :: ys).length (lastIdOf (y :: ys.take k)) with
      | Except.error e => Except.error e
      | Except.ok rest => Except.ok ((y :: ys.take k) ++ rest)) = Except.ok (y :: ys)
    have hm_lt : min k ys.length < st.a.length := by
      rw [hl, List.length_cons]
      omega
    have hrec := paginate_from_index st hnd hne P hP (y :: ys).length
      (min k ys.length) hm_lt (by rw [hl]; omega)
    have hmin : (ys.take k).length = min k ys.length := List.length_take k ys
    have hlast : lastIdOf (y :: ys.take k) = st.a[min k ys.length].ID := by
      rw [lastIdOf]
      congr 1
      rw [getLastD_cons_eq_getElem y (ys.take k)]
      have hgen : ∀ (t : Nat) (ht1 : t < (y :: ys.take k).length) (ht2 : t < st.a.length),
          (y :: ys.take k)[t] = st.a[t] := by
        intro t ht1 ht2
        show ((y :: ys).take (k + 1))[t] = st.a[t]
        rw [List.getElem_take]
        simp only [hl]
      simp only [← hmin]
      exact hgen (ys.take k).length (by simp) (by rw [hmin]; exact hm_lt)
    rw [hlast, hrec]
    show Except.ok ((y :: ys.take k) ++ st.a.drop (min k ys.length + 1)) =
      Except.ok (y :: ys)
    have hdd : st.a.drop (min k ys.length + 1) = ys.drop (min k ys.length) := by
      rw [hl, List.drop_succ_cons]
    rw [hdd]
    rw [show (y :: ys.take k) ++ ys.drop (min k ys.length) =
      y :: (ys.take k ++ ys.drop (min k ys.length)) from rfl]
    rw [take_min_append_drop ys k]

/-- Claim C2: for every store state reached by sequential Create calls and
every page size P of at least 1, with no filters: starting List at the empty
cursor and then repeatedly passing the identifier of the last article of the
previous non-empty page, until an empty page, yields exactly the stored
sequence — every stored article exactly once, in the store's sort order
(identifiers being pairwise distinct). -/
theorem claimC2_cursor_pagination (arts : List Article) (P : Int) (hP : 1 ≤ P) :
    paginateFrom (createAll arts) P ((createAll arts).a.length + 1) "" =
      Except.ok (createAll arts).a ∧
      ((createAll arts).a.map Article.ID).Nodup := by
  obtain ⟨⟨hnd, _, _, _, _⟩, hne⟩ := storeWF_createAll arts
  exact ⟨paginate_full (createAll arts) hnd hne P hP, hnd⟩

set_option maxRecDepth 10000 in
/-- Witness for C2: three stored articles paged two at a time. -/
theorem claimC2_witness :
    (1 : Int) ≤ 2 ∧
      (paginateFrom (createAll [articleFixture "first" 1, articleFixture "third" 3,
          articleFixture "second" 2]) 2
        ((createAll [articleFixture "first" 1, articleFixture "third" 3,
          articleFixture "second" 2]).a.length + 1) "" =
        Except.ok (createAll [articleFixture "first" 1, articleFixture "third" 3,
          articleFixture "second" 2]).a ∧
        ((createAll [articleFixture "first" 1, articleFixture "third" 3,
          articleFixture "second" 2]).a.map Article.ID).Nodup) :=
  ⟨by decide, claimC2_cursor_pagination
    [articleFixture "first" 1, articleFixture "third" 3, articleFixture "second" 2] 2
    (by decide)⟩

/-- The page window applied by List: a positive page size caps the result
length, any other page size means no limit. -/
def pageTake (P : Int) (l : List Article) : List Article :=
  if 0 < P then l.take P.toNat else l

/-- The category criterion in the words of the spec: the article's category
list shares at least one element with the requested filter set. -/
def sharesCategory (cats : List String) (a : Article) : Bool :=
  decide (∃ c, c ∈ a.Categories ∧ c ∈ cats)

/-- The collection loop started at count 0 pages the filtered walk. -/
theorem collect_zero_eq_pageTake (cat : List String) (feed : String) (P : Int)
    (l : List Article) :
    collect cat feed P l 0 = pageTake P (l.filter (passesBoth cat feed)) := by
  rw [collect_eq_filter cat feed P l 0 le_rfl, pageTake]
  by_cases h : (0 : Int) < P
  · rw [if_pos h, if_pos h, Int.sub_zero]
  · rw [if_neg h, if_neg h]

/-- The spec criterion decodes sharesCategory. -/
theorem sharesCategory_iff (cats : List String) (a : Article) :
    sharesCategory cats a = true ↔ ∃ c, c ∈ a.Categories ∧ c ∈ cats := by
  rw [sharesCategory]
  exact decide_eq_true_iff

/-- With a non-empty filter set the category test of the source coincides
with the spec criterion; in particular an article without categories never
passes. -/
theorem passesCategory_eq_sharesCategory (cats : List String) (a : Article)
    (hc : cats ≠ []) : passesCategory cats a = sharesCategory cats a := by
  rw [passesCategory, if_neg (by simpa [List.isEmpty_iff] using hc)]
  by_cases hcat : a.Categories.isEmpty
  · rw [if_pos hcat]
    have h0 : a.Categories = [] := List.isEmpty_iff.mp hcat
    symm
    rw [Bool.eq_false_iff]
    intro hcon
    obtain ⟨c, hc1, _⟩ := (sharesCategory_iff cats a).mp hcon
    rw [h0] at hc1
    simp at hc1
  · rw [if_neg hcat]
    rw [Bool.eq_iff_iff, List.any_eq_true, sharesCategory_iff]
    constructor
    · rintro ⟨c, hc1, hc2⟩
      exact ⟨c, hc1, List.elem_iff.mp hc2⟩
    · rintro ⟨c, hc1, hc2⟩
      exact ⟨c, hc1, List.elem_iff.mpr hc2⟩

/-- Claim C6: with a non-empty category filter set, List returns (within the
cursor window, feed filter and page cap) exactly the articles sharing at
least one category with the filter set; an article with no categories is
never returned; with an empty filter set no category filtering happens. -/
theorem claimC6_category_filter (as : ArticleStore) (cursor : String) (P : Int)
    (feed : String) (cats : List String) (i : Nat) (res : List Article)
    (hi : findArticleCursorIndex as.a cursor = some i)
    (h : as.ListArticles cursor P feed cats = Except.ok res) :
    (cats ≠ [] →
      res = pageTake P ((as.a.drop i).filter
        (fun a => sharesCategory cats a && passesFeed feed a)) ∧
        ∀ art ∈ res, art.Categories ≠ [] ∧ ∃ c, c ∈ art.Categories ∧ c ∈ cats) ∧
      (cats = [] →
        res = pageTake P ((as.a.drop i).filter (fun a => passesFeed feed a))) := by
  have hlist : as.ListArticles cursor P feed cats =
      Except.ok (collect cats feed P (as.a.drop i) 0) := by
    show (match findArticleCursorIndex as.a cursor with
      | none => Except.error "could not find provided cursor"
      | some k => Except.ok (collect cats feed P (as.a.drop k) 0)) = _
    rw [hi]
  rw [hlist] at h
  have hres : res = collect cats feed P (as.a.drop i) 0 := (Except.ok.inj h).symm
  subst hres
  constructor
  · intro hc
    constructor
    · rw [collect_zero_eq_pageTake]
      congr 1
      apply List.filter_congr
      intro a _
      rw [passesBoth, passesCategory_eq_sharesCategory cats a hc]
    · intro art hart
      rw [collect_zero_eq_pageTake] at hart
      have hart2 : art ∈ (as.a.drop i).filter (passesBoth cats feed) := by
        rw [pageTake] at hart
        by_cases hP : (0 : Int) < P
        · rw [if_pos hP] at hart
          exact List.mem_of_mem_take hart
        · rw [if_neg hP] at hart
          exact hart
      have hpb : passesBoth cats feed art = true := List.of_mem_filter hart2
      rw [passesBoth, Bool.and_eq_true] at hpb
      have hshare : sharesCategory cats art = true := by
        rw [← passesCategory_eq_sharesCategory cats art hc]
        exact hpb.1
      obtain ⟨c, hc1, hc2⟩ := (sharesCategory_iff cats art).mp hshare
      refine ⟨?_, c, hc1, hc2⟩
      intro hcon
      rw [hcon] at hc1
      simp at hc1
  · intro hc
    subst hc
    rw [collect_zero_eq_pageTake]
    congr 1

/-- An article with GUID, publish date and categories set, as in the List
tests of the repository. -/
def catArticleFixture (g : String) (t : Int) (cs : List String) : Article :=
  { FeedID := "", ID := "", GUID := g, Title := "", Link := "", Comments := "",
    PublishDate := t, Categories := cs, Enclosures := [], Description := "",
    Author := "", Content := "", FullText := "" }

set_option maxRecDepth 10000 in
/-- Witness for C6: a store with one categorised and one category-less
article, filtered by the matching category. -/
theorem claimC6_witness :
    (findArticleCursorIndex (createAll [catArticleFixture "x1" 1 ["c1"],
          catArticleFixture "x2" 2 []]).a "" = some 0 ∧
      (createAll [catArticleFixture "x1" 1 ["c1"],
          catArticleFixture "x2" 2 []]).ListArticles "" 0 "" ["c1"] =
        Except.ok [{ catArticleFixture "x1" 1 ["c1"] with
          ID := generatedArticleID "x1" }]) ∧
      ((["c1"] ≠ ([] : List String) →
        [{ catArticleFixture "x1" 1 ["c1"] with ID := generatedArticleID "x1" }] =
          pageTake 0 (((createAll [catArticleFixture "x1" 1 ["c1"],
              catArticleFixture "x2" 2 []]).a.drop 0).filter
            (fun a => sharesCategory ["c1"] a && passesFeed "" a)) ∧
          ∀ art ∈ [{ catArticleFixture "x1" 1 ["c1"] with
              ID := generatedArticleID "x1" }],
            art.Categories ≠ [] ∧ ∃ c, c ∈ art.Categories ∧ c ∈ ["c1"]) ∧
        (["c1"] = ([] : List String) →
          [{ catArticleFixture "x1" 1 ["c1"] with ID := generatedArticleID "x1" }] =
            pageTake 0 (((createAll [catArticleFixture "x1" 1 ["c1"],
                catArticleFixture "x2" 2 []]).a.drop 0).filter
              (fun a => passesFeed "" a)))) :=
  ⟨⟨rfl, rfl⟩,
    claimC6_category_filter (createAll [catArticleFixture "x1" 1 ["c1"],
        catArticleFixture "x2" 2 []]) "" 0 "" ["c1"] 0
      [{ catArticleFixture "x1" 1 ["c1"] with ID := generatedArticleID "x1" }]
      rfl rfl⟩

/-- Claim C7: a non-empty cursor matching no stored identifier makes List
fail with the cursor-not-found error and no articles; a cursor that is the
identifier of a stored article always resolves, so List succeeds with a
possibly empty page. -/
theorem claimC7_cursor_errors (as : ArticleStore) (cursor : String) (P : Int)
    (feed : String) (cats : List String) :
    (cursor ≠ "" → (∀ b ∈ as.a, b.ID ≠ cursor) →
      as.ListArticles cursor P feed cats =
        Except.error "could not find provided cursor") ∧
      (∀ b ∈ as.a, b.ID = cursor →
        ∃ res, as.ListArticles cursor P feed cats = Except.ok res) := by
  constructor
  · intro hc hnone
    show (match findArticleCursorIndex as.a cursor with
      | none => Except.error "could not find provided cursor"
      | some k => Except.ok (collect cats feed P (as.a.drop k) 0)) = _
    rw [findCursor_not_found as.a cursor hc hnone]
  · intro b hb hid
    obtain ⟨i, hi⟩ := findCursor_found as.a cursor b hb hid
    refine ⟨collect cats feed P (as.a.drop i) 0, ?_⟩
    show (match findArticleCursorIndex as.a cursor with
      | none => Except.error "could not find provided cursor"
      | some k => Except.ok (collect cats feed P (as.a.drop k) 0)) = _
    rw [hi]

set_option maxRecDepth 10000 in
/-- Witness for C7: a stale cursor fails; the stored identifier, although its
page is empty, succeeds. -/
theorem claimC7_witness :
    ("invalid_cursor" ≠ "" ∧
      (∀ b ∈ (createAll [articleFixture "w" 5]).a, b.ID ≠ "invalid_cursor") ∧
      (createAll [articleFixture "w" 5]).ListArticles "invalid_cursor" 2 "" [] =
        Except.error "could not find provided cursor") ∧
      ({ articleFixture "w" 5 with ID := generatedArticleID "w" } ∈
          (createAll [articleFixture "w" 5]).a ∧
        ({ articleFixture "w" 5 with ID := generatedArticleID "w" }).ID =
          generatedArticleID "w" ∧
        ∃ res, (createAll [articleFixture "w" 5]).ListArticles
          (generatedArticleID "w") 2 "" [] = Except.ok res) :=
  ⟨⟨by decide, by decide,
      (claimC7_cursor_errors (createAll [articleFixture "w" 5]) "invalid_cursor" 2 "" []).1
        (by decide) (by decide)⟩,
    ⟨by decide, rfl,
      (claimC7_cursor_errors (createAll [articleFixture "w" 5])
          (generatedArticleID "w") 2 "" []).2
        { articleFixture "w" 5 with ID := generatedArticleID "w" } (by decide) rfl⟩⟩

/-- Claim C8: Get with the empty identifier fails as invalid; Get with a
non-empty identifier absent from the index fails as not found; Get with a
present identifier returns the stored article; after Reset every previously
successful identifier fails as not found. -/
theorem claimC8_get_errors (as : ArticleStore) (id : String) :
    (id = "" → as.Get id = Except.error "invalid ID provided") ∧
      (id ≠ "" → mLookup as.m id = none →
        as.Get id = Except.error "resource not found") ∧
      (∀ a0, mLookup as.m id = some a0 → id ≠ "" → as.Get id = Except.ok a0) ∧
      (∀ a0, as.Get id = Except.ok a0 →
        (as.Reset).Get id = Except.error "resource not found") := by
  refine ⟨?_, ?_, ?_, ?_⟩
  · intro h
    rw [ArticleStore.Get, if_pos h]
  · intro h hm
    rw [ArticleStore.Get, if_neg h]
    rw [hm]
  · intro a0 hm h
    rw [ArticleStore.Get, if_neg h]
    rw [hm]
  · intro a0 hok
    by_cases h : id = ""
    · rw [ArticleStore.Get, if_pos h] at hok
      exact Except.noConfusion hok
    · rw [show as.Reset = { a := [], m := [] } from rfl, ArticleStore.Get, if_neg h]
      rw [show mLookup ([] : List (String × Article)) id = none from rfl]

set_option maxRecDepth 10000 in
/-- Witness for C8 at the spec scenario: empty identifier, unknown
identifier, a stored identifier, and the stored identifier after Reset. -/
theorem claimC8_witness :
    ((createAll [articleFixture "w" 5]).Get "" =
        Except.error "invalid ID provided") ∧
      ("unknown" ≠ "" ∧
        mLookup (createAll [articleFixture "w" 5]).m "unknown" = none ∧
        (createAll [articleFixture "w" 5]).Get "unknown" =
          Except.error "resource not found") ∧
      (mLookup (createAll [articleFixture "w" 5]).m (generatedArticleID "w") =
        some { articleFixture "w" 5 with ID := generatedArticleID "w" } ∧
        (createAll [articleFixture "w" 5]).Get (generatedArticleID "w") =
          Except.ok { articleFixture "w" 5 with ID := generatedArticleID "w" }) ∧
      (((createAll [articleFixture "w" 5]).Reset).Get (generatedArticleID "w") =
        Except.error "resource not found") := by
  refine ⟨(claimC8_get_errors (createAll [articleFixture "w" 5]) "").1 rfl,
    ⟨by decide, by decide,
      (claimC8_get_errors (createAll [articleFixture "w" 5]) "unknown").2.1
        (by decide) (by decide)⟩,
    ⟨by decide,
      (claimC8_get_errors (createAll [articleFixture "w" 5])
          (generatedArticleID "w")).2.2.1
        { articleFixture "w" 5 with ID := generatedArticleID "w" } (by decide)
        (generatedArticleID_ne_empty "w")⟩,
    (claimC8_get_errors (createAll [articleFixture "w" 5])
        (generatedArticleID "w")).2.2.2
      { articleFixture "w" 5 with ID := generatedArticleID "w" }
      ((claimC8_get_errors (createAll [articleFixture "w" 5])
          (generatedArticleID "w")).2.2.1
        { articleFixture "w" 5 with ID := generatedArticleID "w" } (by decide)
        (generatedArticleID_ne_empty "w"))⟩

/-- Counterexample to C5: the two stores parse the very same namespace
constant, so for the shared key "test_guid" the article identifier and the
feed identifier coincide instead of differing. -/
theorem claimC5_counterexample :
    generatedArticleID "test_guid" = generatedFeedID "test_guid" := rfl

/-- Claim C5 amended: for every string used both as an article GUID and as a
feed address, the identifier generated by ArticleStore.Create equals the one
generated by FeedStore.Create: both stores hash with the single shared
namespace of store.go, so the two logical domains share one identifier
space. -/
theorem claimC5_amended (k : String) : generatedArticleID k = generatedFeedID k := rfl
